import Mathlib

/-!
Verification development for the Vita-e-morte-DH-projects URL/archive
checking scripts.  The Python sources are shallowly embedded as Lean
functions:

* `archivechecker.py`   — single-shot Wayback client without retries;
* `archivechecker2.py`  — retrying client (MAX_RETRIES = 8, BACKOFF_FACTOR = 4),
  two-role batch loop that only processes the first role;
* `archivechecker3.py`  — retrying client (MAX_RETRIES = 10, BACKOFF_FACTOR = 2)
  with client-side 4xx/5xx filtering and a snapshot-link column;
* `helper_scripts/single_url_archive_checker.py` — retrying client with
  server-side `statuscode:200` filter.

Network behaviour is modelled by an environment: each HTTP attempt either
raises a `requests.RequestException` (`netFail`), raises a decode error from
`response.json()` (`decodeFail`), or returns decoded JSON data (`ok`).
Query runners return, next to the Python return value, the list of the
back-off sleeps performed and the number of attempts made, so that the
retry/backoff claims are statable.
-/

/-- Characters matched by Python's `\s` (and skipped by `str.strip()`):
ASCII whitespace plus the Unicode whitespace code points recognised by the
`re` module on `str` patterns. -/
def isPySpace (c : Char) : Bool :=
  c.val = 0x20 || (0x9 ≤ c.val && c.val ≤ 0xd) || (0x1c ≤ c.val && c.val ≤ 0x1f)
    || c.val = 0x85 || c.val = 0xa0 || c.val = 0x1680
    || (0x2000 ≤ c.val && c.val ≤ 0x200a) || c.val = 0x2028 || c.val = 0x2029
    || c.val = 0x202f || c.val = 0x205f || c.val = 0x3000

/-- The characters of the literal `"https://"`. -/
def httpsL : List Char := ['h', 't', 't', 'p', 's', ':', '/', '/']

/-- The characters of the literal `"http://"`. -/
def httpL : List Char := ['h', 't', 't', 'p', ':', '/', '/']

/-- The characters of the literal `"www."`. -/
def wwwL : List Char := ['w', 'w', 'w', '.']

/-- The alternation `(http(s)?://|www\.)` of the pattern in `is_valid_url`,
anchored at the start by `re.match`: strips the matched alternative and
returns the remaining characters. -/
def stripUrlHead (cs : List Char) : Option (List Char) :=
  if cs.take 8 = httpsL then some (cs.drop 8)
  else if cs.take 7 = httpL then some (cs.drop 7)
  else if cs.take 4 = wwwL then some (cs.drop 4)
  else none

/-- The tail `[^\s]+$` of the pattern in `is_valid_url`, with Python's
`$` semantics: `$` matches at the end of the string or just before a
newline that ends the string.  Operationally: consume one non-space
character, then either stop at the end, stop before a final newline, or
keep consuming. -/
def matchBodyDollar : List Char → Bool
  | [] => false
  | c :: cs =>
    if isPySpace c then false
    else if cs = [] then true
    else if cs = ['\n'] then true
    else matchBodyDollar cs

/-- Model of `is_valid_url` from `archivechecker2.py` / `archivechecker3.py`:
`if not url: return False` followed by
`re.match(r'^(http(s)?://|www\.)[^\s]+$', url)`. -/
def is_valid_url (url : String) : Bool :=
  if url.isEmpty then false
  else
    match stripUrlHead url.toList with
    | some rest => matchBodyDollar rest
    | none => false

/-- Modelled from the spec: the language of the regular expression
`^(https?://|www\.)\S+$` read as a full-string pattern (prefix alternative
followed by one or more non-whitespace characters, nothing else).  Used to
compare the spec's description of `is_valid` with the code's behaviour. -/
def specValid (s : String) : Bool :=
  match stripUrlHead s.toList with
  | some rest => !rest.isEmpty && rest.all (fun c => !isPySpace c)
  | none => false

/-- Index of the first `':'` in a character list, if any; models
`url.find(':')` as used by `urllib.parse.urlsplit`. -/
def findColon : List Char → Option Nat
  | [] => none
  | c :: cs => if c = ':' then some 0 else (findColon cs).map (· + 1)

/-- Membership in `scheme_chars` of `urllib.parse`: letters, digits, `+`, `-`, `.`. -/
def schemeChar (c : Char) : Bool :=
  ('a' ≤ c && c ≤ 'z') || ('A' ≤ c && c ≤ 'Z') || ('0' ≤ c && c ≤ '9')
    || c = '+' || c = '-' || c = '.'

/-- Result of a Python call that may raise: `PyResult.ret` is a normal
return and `PyResult.exn` an exception propagating past the modelled
boundary (the scripts have uncaught exception paths, see `normalize_url`
and `get_wayback_info1`). -/
inductive PyResult (α : Type) where
  | ret : α → PyResult α
  | exn : PyResult α
deriving DecidableEq

/-- View of a `PyResult` as an `Option`, forgetting which exception was
raised. -/
def PyResult.toOption : PyResult α → Option α
  | .ret a => some a
  | .exn => none

/-- Characters stripped from the URL by `urlsplit` before parsing
(CPython's `_UNSAFE_URL_BYTES_TO_REMOVE`: tab, CR, LF). -/
def urlUnsafeChar (c : Char) : Bool :=
  c = '\t' || c = '\r' || c = '\n'

/-- The URL as `urlsplit` sees it, after removing unsafe characters. -/
def cleanUrl (cs : List Char) : List Char :=
  cs.filter (fun c => !urlUnsafeChar c)

/-- Scheme detection of CPython's `urlsplit`: a `':'` at a positive index
preceded only by scheme characters splits off the scheme; returns whether
a scheme was found and the remainder of the URL. -/
def schemeSplit (cs : List Char) : Bool × List Char :=
  match findColon cs with
  | some i =>
    if 0 < i && (cs.take i).all schemeChar then (true, cs.drop (i + 1)) else (false, cs)
  | none => (false, cs)

/-- The network-location part: after a leading `//`, everything up to the
first `/`, `?` or `#` (CPython's `_splitnetloc`). -/
def netlocOf (cs : List Char) : List Char :=
  (cs.drop 2).takeWhile (fun c => !(c = '/' || c = '?' || c = '#'))

/-- The condition under which `urlsplit` raises
`ValueError("Invalid IPv6 URL")`: the netloc contains `[` without `]` or
`]` without `[`. -/
def invalidIPv6 (netloc : List Char) : Bool :=
  (netloc.contains '[' && !netloc.contains ']')
    || (netloc.contains ']' && !netloc.contains '[')

/-- Outcome of `urlparse(url)` as used by `normalize_url`: whether
`.scheme` is non-empty, or the `ValueError` that `urlsplit` raises on an
unmatched bracket in the network location.  (Verified against CPython:
`urlparse("http://[")` raises `ValueError: Invalid IPv6 URL`.) -/
def urlparseScheme (url : String) : PyResult Bool :=
  let cs := cleanUrl url.toList
  let p := schemeSplit cs
  if p.2.take 2 = ['/', '/'] then
    if invalidIPv6 (netlocOf p.2) then PyResult.exn else PyResult.ret p.1
  else PyResult.ret p.1

/-- Model of `str.startswith`: the first `p.length` characters equal `p`. -/
def startsWithStr (s p : String) : Bool :=
  s.toList.take p.toList.length == p.toList

/-- Model of `normalize_url` (identical in `archivechecker2.py`,
`archivechecker3.py` and both helper scripts): inputs starting with
`www.` are returned with an `http://` prepended before any parsing;
otherwise `urlparse` runs — and may raise `ValueError` past
`normalize_url`, since the function has no exception handler — and the
URL is prefixed with `http://` exactly when no scheme was found. -/
def normalize_url (url : String) : PyResult String :=
  if startsWithStr url "www." then PyResult.ret ("http://" ++ url)
  else
    match urlparseScheme url with
    | PyResult.exn => PyResult.exn
    | PyResult.ret true => PyResult.ret url
    | PyResult.ret false => PyResult.ret ("http://" ++ url)

/-- Model of `str.strip()` on the CSV cell values: drop leading and trailing
whitespace. -/
def pyStrip (s : String) : String :=
  String.mk (((s.toList.dropWhile isPySpace).reverse.dropWhile isPySpace).reverse)

/-- Outcome of one HTTP attempt against the CDX API, as observed by the
Python code: `netFail` models a `requests.RequestException` (including
`raise_for_status` errors), `decodeFail` models a decode error raised by
`response.json()` (a `ValueError`), and `ok data` models a successfully
decoded JSON array of rows. -/
inductive Attempt (α : Type) where
  | netFail : Attempt α
  | decodeFail : Attempt α
  | ok : List α → Attempt α
deriving DecidableEq

/-- One data row of the CDX response for the clients that request
`fl=timestamp,original,statuscode`: the three string fields of the row. -/
structure RawRow where
  ts : String
  orig : String
  code : String
deriving DecidableEq

/-- A filtered snapshot in `archivechecker3.py`:
`(timestamp, original_url, parsed status code)`. -/
abbrev Snap := String × String × Int

/-- The retry loop shared by `archivechecker2.py`, `archivechecker3.py` and
`single_url_archive_checker.py` (`for attempt in range(1, MAX_RETRIES + 1)`).
`attempt` is the 1-based index of the current attempt and `fuel` the number
of attempts still allowed, including the current one; the top-level entry
point is `runQuery` below.  Returns the Python return value, the list of
back-off sleeps performed (in seconds), and the number of attempts made.
On `ok data` the body computes `process data` and returns; a `decodeFail`
(`except ValueError`) returns the failure value immediately; a `netFail`
(`except requests.RequestException`) on the final attempt returns the
failure value, and otherwise sleeps `backoff ^ (attempt - 1)` and retries.
The `fuel = 0` case is unreachable from `runQuery` with a positive retry
budget (the Python loop body would never run). -/
def runQueryAux {α β : Type} (process : List α → β) (failVal : β) (backoff : Nat)
    (env : Nat → Attempt α) : Nat → Nat → β × List Nat × Nat
  | _, 0 => (failVal, [], 0)
  | attempt, fuel + 1 =>
    match env attempt with
    | .ok data => (process data, [], 1)
    | .decodeFail => (failVal, [], 1)
    | .netFail =>
      if fuel = 0 then (failVal, [], 1)
      else
        let r := runQueryAux process failVal backoff env (attempt + 1) fuel
        (r.1, backoff ^ (attempt - 1) :: r.2.1, r.2.2 + 1)

/-- Run a query client configured with `maxRetries` attempts and back-off
base `backoff`, starting at attempt 1. -/
def runQuery {α β : Type} (process : List α → β) (failVal : β) (backoff maxRetries : Nat)
    (env : Nat → Attempt α) : β × List Nat × Nat :=
  runQueryAux process failVal backoff env 1 maxRetries

/-- Success-path body of `get_wayback_info` in `archivechecker2.py`
(`fl=timestamp`, so each data row is its single timestamp field; the
element at index 0 is the header row): fewer than 2 elements means no
snapshots; otherwise sort the timestamps of `data[1:]` and return the
first and last.  The `datetime.strptime` re-formatting of the two
timestamps is applied later by `process_url`. -/
def processData2 (data : List String) : Option (String × String) :=
  if data.length < 2 then none
  else
    match List.insertionSort (fun a b : String => a ≤ b) (data.drop 1) with
    | [] => none
    | t :: ts => some (t, (t :: ts).getLast (List.cons_ne_nil t ts))

/-- Model of `get_wayback_info` of `archivechecker2.py`, MAX_RETRIES = 8,
BACKOFF_FACTOR = 4, applied to an environment of attempt outcomes. -/
def get_wayback_info2 (env : Nat → Attempt String) :
    Option (String × String) × List Nat × Nat :=
  runQuery processData2 none 4 8 env

/-- Success-path body of `get_wayback_info` in `archivechecker.py`: same
shape as `archivechecker2.py` but without the redundant emptiness check
after sorting. -/
def processData1 (data : List String) : Option (String × String) :=
  if data.length < 2 then none
  else
    match List.insertionSort (fun a b : String => a ≤ b) (data.drop 1) with
    | [] => none
    | t :: ts => some (t, (t :: ts).getLast (List.cons_ne_nil t ts))

/-- Model of `get_wayback_info` of `archivechecker.py` on one attempt
outcome: a single request with no retry.  Crucially,
`data = response.json()` sits *outside* the
`try/except requests.RequestException` block, so a decode failure raises
a `ValueError` past the function boundary (`PyResult.exn`). -/
def get_wayback_info1 (att : Attempt String) : PyResult (Option (String × String)) :=
  match att with
  | .netFail => .ret none
  | .decodeFail => .exn
  | .ok data => .ret (processData1 data)

/-- Digit accumulator for `pyInt?`: consume decimal digits, failing on
the first non-digit. -/
def pyDigitsAux : Nat → List Char → Option Nat
  | acc, [] => some acc
  | acc, c :: cs =>
    if '0' ≤ c ∧ c ≤ '9' then pyDigitsAux (acc * 10 + (c.toNat - '0'.toNat)) cs
    else none

/-- A non-empty all-digit character list parsed as a natural number. -/
def pyDigits : List Char → Option Nat
  | [] => none
  | cs => pyDigitsAux 0 cs

/-- Model of `int(code_str)` guarded by `try/except ValueError` in
`archivechecker3.py`: `some` the parsed integer for an optional minus
sign followed by decimal digits (the forms taken by CDX status-code
fields), `none` when the field is non-numeric (a `ValueError`, in which
case the row is skipped). -/
def pyInt? (s : String) : Option Int :=
  match s.toList with
  | '-' :: rest => (pyDigits rest).map (fun n => -(n : Int))
  | cs => (pyDigits cs).map (fun n => (n : Int))

/-- The per-row filter of `archivechecker3.py`'s `get_wayback_info`: skip
rows whose status-code field does not parse as an integer and discard
snapshots whose code lies in 400–599; keep the rest as
`(timestamp, original_url, code)`. -/
def keepRow (r : RawRow) : Option Snap :=
  match pyInt? r.code with
  | none => none
  | some c => if 400 ≤ c ∧ c < 600 then none else some (r.ts, r.orig, c)

/-- The `valid_snapshots` list of `archivechecker3.py`: the rows surviving
`keepRow`. -/
def filterValid (rows : List RawRow) : List Snap :=
  rows.filterMap keepRow

/-- Comparison key used by `valid_snapshots.sort(key=lambda tup: tup[0])`:
order snapshots by their timestamp string. -/
def tsLe (a b : Snap) : Prop := a.1 ≤ b.1

instance : DecidableRel tsLe := fun a b => inferInstanceAs (Decidable (a.1 ≤ b.1))

instance : IsTotal Snap tsLe := ⟨fun a b => le_total a.1 b.1⟩

instance : IsTrans Snap tsLe := ⟨fun _ _ _ h h' => le_trans h h'⟩

/-- The Wayback replay link built for the most recent snapshot in
`archivechecker3.py`. -/
def waybackLink (ts orig : String) : String :=
  "https://web.archive.org/web/" ++ ts ++ "/" ++ orig

/-- The aggregation tail of `archivechecker3.py`'s `get_wayback_info`: on
an empty filtered list return the all-`None` triple
(`if not valid_snapshots`); otherwise sort by timestamp ascending and
return the first timestamp, the last timestamp, and the replay link of the
last snapshot.  The fall-through arm is unreachable: a non-empty list
sorts to a non-empty list (the Python code indexes `[0]` and `[-1]`
directly). -/
def summarize (snaps : List Snap) : Option String × Option String × Option String :=
  if snaps.isEmpty then (none, none, none)
  else
    let sorted := List.insertionSort tsLe snaps
    match sorted.head?, sorted.getLast? with
    | some first, some lastSnap =>
      (some first.1, some lastSnap.1, some (waybackLink lastSnap.1 lastSnap.2.1))
    | _, _ => (none, none, none)

/-- Success-path body of `get_wayback_info` in `archivechecker3.py`:
fewer than 2 elements or an empty `data[1:]` mean no snapshots; otherwise
filter and aggregate. -/
def processData3 (data : List RawRow) : Option String × Option String × Option String :=
  if data.length < 2 then (none, none, none)
  else
    let rows := data.drop 1
    if rows.isEmpty then (none, none, none)
    else summarize (filterValid rows)

/-- Model of `get_wayback_info` of `archivechecker3.py`, MAX_RETRIES = 10,
BACKOFF_FACTOR = 2. -/
def get_wayback_info3 (env : Nat → Attempt RawRow) :
    (Option String × Option String × Option String) × List Nat × Nat :=
  runQuery processData3 (none, none, none) 2 10 env

/-- Success-path body of `get_wayback_snapshots` in
`single_url_archive_checker.py` (server-side `filter=statuscode:200`):
returns the sorted snapshot rows with the first and last timestamp. -/
def processDataS (data : List RawRow) : List RawRow × Option String × Option String :=
  if data.length < 2 then ([], none, none)
  else
    let sorted := List.insertionSort (fun a b : RawRow => a.ts ≤ b.ts) (data.drop 1)
    match sorted.head?, sorted.getLast? with
    | some first, some lastSnap => (sorted, some first.ts, some lastSnap.ts)
    | _, _ => ([], none, none)

/-- Model of `get_wayback_snapshots` of `single_url_archive_checker.py`,
MAX_RETRIES = 8, BACKOFF_FACTOR = 4. -/
def get_wayback_snapshots (env : Nat → Attempt RawRow) :
    (List RawRow × Option String × Option String) × List Nat × Nat :=
  runQuery processDataS ([], none, none) 4 8 env

/-- Model of `datetime.strptime(ts, "%Y%m%d%H%M%S").strftime("%Y-%m-%d %H:%M:%S")`
on a well-formed 14-digit Wayback timestamp.  (A malformed timestamp would
raise inside `get_wayback_info`'s `try` and be converted to the failure
value by the generic `except`; the claims never exercise that path.) -/
def formatTs (ts : String) : String :=
  let cs := ts.toList
  String.mk (cs.take 4 ++ '-' :: ((cs.drop 4).take 2) ++ '-' :: ((cs.drop 6).take 2)
    ++ ' ' :: ((cs.drop 8).take 2) ++ ':' :: ((cs.drop 10).take 2)
    ++ ':' :: ((cs.drop 12).take 2))

/-- A network side effect performed by the per-record processing: one live
`requests.get` probe, or one CDX query (which may internally retry). -/
inductive NetEffect where
  | liveGet : String → NetEffect
  | cdxQuery : String → NetEffect
deriving DecidableEq

/-- Environment of `archivechecker3.py`: for each normalized URL, the
outcome of the live status probe (`check_url_status`; `none` models a
`requests.RequestException`, i.e. an unreachable site) and the outcome of
each CDX attempt. -/
structure Env3 where
  live : String → Option Nat
  wayback : String → Nat → Attempt RawRow

/-- The four derived output fields per URL role in `archivechecker3.py`
(the dict returned by `process_url`, with the status code flattened to a
string as the CSV writer does). -/
structure Output3 where
  first_seen : String
  last_seen : String
  status_code : String
  last_snapshot_link : String
deriving DecidableEq

/-- The dict returned by `process_url` for an invalid or empty URL:
three `NOTPROVIDED` sentinels and an empty link field. -/
def notProvidedOut : Output3 :=
  { first_seen := "NOTPROVIDED", last_seen := "NOTPROVIDED",
    status_code := "NOTPROVIDED", last_snapshot_link := "" }

/-- Model of `process_url` of `archivechecker3.py`: an invalid or empty URL yields
the `NOTPROVIDED` sentinels (with an empty link field) and performs no
network call; a valid URL is normalized — `normalize_url`'s `ValueError`
propagates, since `process_url` has no exception handler — then probed
live (a failed probe yields `NOSTATUSCODE`) and queried on the Wayback
CDX API; absent Wayback fields are flattened to empty strings.  The
second component lists the network effects performed. -/
def process_url3 (env : Env3) (urlValue : String) :
    PyResult (Output3 × List NetEffect) :=
  if !is_valid_url urlValue then
    PyResult.ret
      ({ first_seen := "NOTPROVIDED", last_seen := "NOTPROVIDED",
         status_code := "NOTPROVIDED", last_snapshot_link := "" }, [])
  else
    match normalize_url urlValue with
    | PyResult.exn => PyResult.exn
    | PyResult.ret n =>
      let statusStr := match env.live n with
        | some c => toString c
        | none => "NOSTATUSCODE"
      let wb := (get_wayback_info3 (env.wayback n)).1
      PyResult.ret
        ({ first_seen := match wb.1 with | some t => formatTs t | none => ""
         , last_seen := match wb.2.1 with | some t => formatTs t | none => ""
         , status_code := statusStr
         , last_snapshot_link := match wb.2.2 with | some l => l | none => "" },
         [NetEffect.liveGet n, NetEffect.cdxQuery n])

/-- One input CSV row for the two-role batch scripts: the two role-tagged
URL cells plus the pass-through fields. -/
structure UrlRecord where
  progetto : String
  vetrina : String
  rest : List (String × String)
deriving DecidableEq

/-- One output CSV row of `archivechecker3.py`: the input row plus the
four derived fields for each of the two roles. -/
structure OutRow3 where
  base : UrlRecord
  pInfo : Output3
  vInfo : Output3
deriving DecidableEq

/-- The loop body of `archivechecker3.py`'s main loop for one row:
`row.get(...).strip()` for both roles, `process_url` on each (first role
first — an exception from either call propagates out of the loop body),
and the assembled output row that is written immediately. -/
def processRow3 (env : Env3) (r : UrlRecord) : PyResult OutRow3 :=
  match process_url3 env (pyStrip r.progetto) with
  | PyResult.exn => PyResult.exn
  | PyResult.ret p =>
    match process_url3 env (pyStrip r.vetrina) with
    | PyResult.exn => PyResult.exn
    | PyResult.ret v => PyResult.ret { base := r, pInfo := p.1, vInfo := v.1 }

/-- The main loop of `archivechecker3.py`: each input row is processed and
its output row written append-only, in input order.  Returns the rows
written (durable, flushed per record) and whether the loop ran to
completion: an uncaught exception in the loop body — `normalize_url`'s
`ValueError` is the one live path — aborts the batch, suppressing the
current row and every later one. -/
def mainLoop3 (env : Env3) : List UrlRecord → List OutRow3 × Bool
  | [] => ([], true)
  | r :: rs =>
    match processRow3 env r with
    | PyResult.exn => ([], false)
    | PyResult.ret out =>
      let rest := mainLoop3 env rs
      (out :: rest.1, rest.2)

/-- Environment of `archivechecker2.py`, analogous to `Env3` (its CDX
query requests `fl=timestamp`, so a data row is one timestamp string). -/
structure Env2 where
  live : String → Option Nat
  wayback : String → Nat → Attempt String

/-- Model of `process_url` of `archivechecker2.py`: an invalid or empty URL yields
the `NOTFOUND` sentinel triple and performs no network call; otherwise
normalize (a `ValueError` from `normalize_url` propagates uncaught),
probe live, query Wayback; the triple is
`(first_seen, last_seen, status_code)` flattened to strings. -/
def process_url2 (env : Env2) (urlValue : String) :
    PyResult ((String × String × String) × List NetEffect) :=
  if !is_valid_url urlValue then
    PyResult.ret (("NOTFOUND", "NOTFOUND", "NOTFOUND"), [])
  else
    match normalize_url urlValue with
    | PyResult.exn => PyResult.exn
    | PyResult.ret n =>
      let status := env.live n
      let wb := (get_wayback_info2 (env.wayback n)).1
      let firstStr := match wb with | some p => formatTs p.1 | none => ""
      let lastStr := match wb with | some p => formatTs p.2 | none => ""
      let statusStr := match status with | some c => toString c | none => "NOTFOUND"
      PyResult.ret ((firstStr, lastStr, statusStr),
        [NetEffect.liveGet n, NetEffect.cdxQuery n])

/-- One output CSV row of `archivechecker2.py`: the input row plus three
derived fields per role. -/
structure OutRow2 where
  base : UrlRecord
  pFirst : String
  pLast : String
  pStatus : String
  vFirst : String
  vLast : String
  vStatus : String
deriving DecidableEq

/-- The loop body of `archivechecker2.py`'s main loop for one row: only
the first role (`URL progetto`) is processed; the call for the second role
(`URL sito vetrina`) is commented out in the source and its three fields
are hard-coded to empty strings. -/
def processRow2 (env : Env2) (r : UrlRecord) : PyResult (OutRow2 × List NetEffect) :=
  match process_url2 env (pyStrip r.progetto) with
  | PyResult.exn => PyResult.exn
  | PyResult.ret p =>
    PyResult.ret
      ({ base := r
       , pFirst := p.1.1, pLast := p.1.2.1, pStatus := p.1.2.2
       , vFirst := "", vLast := "", vStatus := "" }, p.2)

/-- The main loop of `archivechecker2.py`: like `mainLoop3`, an uncaught
exception aborts the batch. -/
def mainLoop2 (env : Env2) : List UrlRecord → List (OutRow2 × List NetEffect) × Bool
  | [] => ([], true)
  | r :: rs =>
    match processRow2 env r with
    | PyResult.exn => ([], false)
    | PyResult.ret out =>
      let rest := mainLoop2 env rs
      (out :: rest.1, rest.2)

/-! ## Helper lemmas -/

theorem runQueryAux_netFail {α β : Type} (process : List α → β) (failVal : β)
    (backoff : Nat) (env : Nat → Attempt α) :
    ∀ f a, 1 ≤ a → 1 ≤ f → (∀ k, env k = Attempt.netFail) →
      runQueryAux process failVal backoff env a f
        = (failVal, (List.range (f - 1)).map (fun i => backoff ^ (a - 1 + i)), f) := by
  intro f
  induction f with
  | zero => intro a _ hf _; omega
  | succ f ih =>
    intro a ha _ hall
    show (match env a with
      | .ok data => (process data, [], 1)
      | .decodeFail => (failVal, [], 1)
      | .netFail =>
        if f = 0 then (failVal, [], 1)
        else
          let r := runQueryAux process failVal backoff env (a + 1) f
          (r.1, backoff ^ (a - 1) :: r.2.1, r.2.2 + 1)) = _
    rw [hall a]
    by_cases hf0 : f = 0
    · subst hf0; simp
    · have hf1 : 1 ≤ f := Nat.one_le_iff_ne_zero.mpr hf0
      simp only [if_neg hf0]
      rw [ih (a + 1) (by omega) hf1 hall]
      have hstep : (List.range f).map (fun i => backoff ^ (a - 1 + i))
          = backoff ^ (a - 1) :: (List.range (f - 1)).map (fun i => backoff ^ (a + i)) := by
        have hsplit : f = (f - 1) + 1 := by omega
        rw [hsplit, List.range_succ_eq_map, List.map_cons, List.map_map]
        refine congrArg₂ _ (by simp) ?_
        refine List.map_congr_left ?_
        intro i _
        show backoff ^ (a - 1 + (i + 1)) = backoff ^ (a + i)
        congr 1
        omega
      simp [hstep]

theorem runQueryAux_decodeFail {α β : Type} (process : List α → β) (failVal : β)
    (backoff : Nat) (env : Nat → Attempt α) :
    ∀ j f a, 1 ≤ a → j < f → (∀ i, i < j → env (a + i) = Attempt.netFail) →
      env (a + j) = Attempt.decodeFail →
      runQueryAux process failVal backoff env a f
        = (failVal, (List.range j).map (fun i => backoff ^ (a - 1 + i)), j + 1) := by
  intro j
  induction j with
  | zero =>
    intro f a _ hjf _ hdec
    obtain ⟨f', rfl⟩ : ∃ f', f = f' + 1 := ⟨f - 1, by omega⟩
    show (match env a with
      | .ok data => (process data, [], 1)
      | .decodeFail => (failVal, [], 1)
      | .netFail =>
        if f' = 0 then (failVal, [], 1)
        else
          let r := runQueryAux process failVal backoff env (a + 1) f'
          (r.1, backoff ^ (a - 1) :: r.2.1, r.2.2 + 1)) = _
    have : env a = Attempt.decodeFail := by simpa using hdec
    rw [this]
    simp
  | succ j ih =>
    intro f a ha hjf hpre hdec
    obtain ⟨f', rfl⟩ : ∃ f', f = f' + 1 := ⟨f - 1, by omega⟩
    show (match env a with
      | .ok data => (process data, [], 1)
      | .decodeFail => (failVal, [], 1)
      | .netFail =>
        if f' = 0 then (failVal, [], 1)
        else
          let r := runQueryAux process failVal backoff env (a + 1) f'
          (r.1, backoff ^ (a - 1) :: r.2.1, r.2.2 + 1)) = _
    have h0 : env a = Attempt.netFail := by simpa using hpre 0 (by omega)
    rw [h0]
    have hf0 : f' ≠ 0 := by omega
    simp only [if_neg hf0]
    rw [ih f' (a + 1) (by omega) (by omega)
      (fun i hi => by simpa [Nat.add_assoc, Nat.add_comm 1 i] using hpre (i + 1) (by omega))
      (by simpa [Nat.add_assoc, Nat.add_comm 1 j] using hdec)]
    have hstep : (List.range (j + 1)).map (fun i => backoff ^ (a - 1 + i))
        = backoff ^ (a - 1) :: (List.range j).map (fun i => backoff ^ (a + 1 - 1 + i)) := by
      rw [List.range_succ_eq_map, List.map_cons, List.map_map]
      refine congrArg₂ _ (by simp) ?_
      refine List.map_congr_left ?_
      intro i _
      show backoff ^ (a - 1 + (i + 1)) = backoff ^ (a + 1 - 1 + i)
      congr 1
      omega
    simp [hstep]

/-! ## Claim theorems -/

/-- Claim C3: for the archive query client configured with `maxRetries`
attempts and back-off base `backoff`, when every attempt fails with a
network-level error the client performs exactly `maxRetries` attempts,
sleeps `backoff ^ (k - 1)` seconds after the k-th failed attempt for
k = 1 .. maxRetries - 1, does not sleep after the final attempt, and
returns the failure value (`QueryFailed`). -/
theorem c3_retry_backoff {α β : Type} (process : List α → β) (failVal : β)
    (backoff maxRetries : Nat) (env : Nat → Attempt α)
    (hm : 1 ≤ maxRetries) (hfail : ∀ k, env k = Attempt.netFail) :
    runQuery process failVal backoff maxRetries env
      = (failVal, (List.range (maxRetries - 1)).map (fun k => backoff ^ k), maxRetries) := by
  have h := runQueryAux_netFail process failVal backoff env maxRetries 1 (by omega) hm hfail
  simpa [runQuery] using h

/-- Witness for C3: with `max_retries = 3` and `backoff_base = 4`
(`archivechecker2.py`'s response processing) and a client failing every
attempt, the client sleeps 1s then 4s and returns `QueryFailed`
(`None, None`) after the 3rd attempt. -/
theorem c3_retry_backoff_witness :
    1 ≤ 3 ∧
    runQuery processData2 none 4 3 (fun _ => Attempt.netFail)
      = (none, [1, 4], 3) :=
  ⟨by decide,
    (c3_retry_backoff processData2 none 4 3 (fun _ => Attempt.netFail)
      (by decide) (fun _ => rfl)).trans (by decide)⟩

/-- Claim C4, counterexample: in `archivechecker.py`, `get_wayback_info`
does not return `QueryFailed` on a malformed response body — the decode
failure of `response.json()` (which sits outside the
`try/except requests.RequestException` block) raises a `ValueError` past
the client boundary on its single (first) attempt. -/
theorem c4_counterexample :
    get_wayback_info1 Attempt.decodeFail = PyResult.exn
      ∧ get_wayback_info1 Attempt.decodeFail ≠ PyResult.ret none := by
  decide

/-- Claim C4, amended: for the retrying query clients
(`archivechecker2.py`, `archivechecker3.py`,
`single_url_archive_checker.py`), a query whose response body fails to
decode returns the failure value (`QueryFailed`) immediately, without
performing any further retry attempt and without raising past the client
boundary, on every attempt including the first; in `archivechecker.py`
the decode failure instead raises a `ValueError` past `get_wayback_info`. -/
theorem c4_decode_short_circuit {α β : Type} (process : List α → β) (failVal : β)
    (backoff maxRetries j : Nat) (env : Nat → Attempt α)
    (hj : j < maxRetries)
    (hpre : ∀ i, i < j → env (1 + i) = Attempt.netFail)
    (hdec : env (1 + j) = Attempt.decodeFail) :
    runQuery process failVal backoff maxRetries env
      = (failVal, (List.range j).map (fun i => backoff ^ i), j + 1) := by
  have h := runQueryAux_decodeFail process failVal backoff env j maxRetries 1
    (by omega) hj hpre hdec
  simpa [runQuery] using h

/-- Witness for C4 (amended): a first attempt that fails at network level
followed by a second attempt whose body fails to decode makes the
`archivechecker2.py` client stop after 2 of its up-to-5 attempts, with a
single 1-second sleep, returning `QueryFailed`. -/
theorem c4_decode_short_circuit_witness :
    (1 : Nat) < 5 ∧
    runQuery processData2 none 4 5
        (fun k => if k ≤ 1 then Attempt.netFail else Attempt.decodeFail)
      = (none, [1], 2) :=
  ⟨by decide,
    (c4_decode_short_circuit processData2 none 4 5 1
      (fun k => if k ≤ 1 then Attempt.netFail else Attempt.decodeFail)
      (by decide)
      (fun i hi => by
        have : i = 0 := by omega
        subst this
        rfl)
      rfl).trans (by decide)⟩

theorem toList_inj {a b : String} (h : a.toList = b.toList) : a = b := by
  cases a
  cases b
  simp only [String.toList] at h
  exact congrArg String.mk h

theorem toList_append (a b : String) : (a ++ b).toList = a.toList ++ b.toList := by
  cases a
  cases b
  rfl

theorem isEmpty_iff_toList (s : String) : s.isEmpty = true ↔ s.toList = [] := by
  rw [String.isEmpty_iff]
  constructor
  · rintro rfl
    rfl
  · intro h
    exact toList_inj (b := "") h

theorem strip_head_some (cs r : List Char) :
    stripUrlHead cs = some r ↔
      cs = httpsL ++ r ∨ cs = httpL ++ r ∨ cs = wwwL ++ r := by
  constructor
  · intro h
    unfold stripUrlHead at h
    split_ifs at h with h8 h7 h4
    · left
      rw [Option.some_inj] at h
      rw [← h, ← h8]
      exact (List.take_append_drop 8 cs).symm
    · right; left
      rw [Option.some_inj] at h
      rw [← h, ← h7]
      exact (List.take_append_drop 7 cs).symm
    · right; right
      rw [Option.some_inj] at h
      rw [← h, ← h4]
      exact (List.take_append_drop 4 cs).symm
  · rintro (rfl | rfl | rfl)
    · rfl
    · rfl
    · rfl

theorem matchBodyDollar_iff : ∀ cs : List Char,
    matchBodyDollar cs = true ↔
      ((cs ≠ [] ∧ ∀ c ∈ cs, isPySpace c = false)
        ∨ ∃ t, cs = t ++ ['\n'] ∧ t ≠ [] ∧ ∀ c ∈ t, isPySpace c = false) := by
  intro cs
  induction cs with
  | nil =>
    constructor
    · intro h
      exact absurd h (by simp [matchBodyDollar])
    · rintro (⟨h, _⟩ | ⟨t, ht, _, _⟩)
      · exact absurd rfl h
      · exact absurd ht (by simp)
  | cons c cs ih =>
    by_cases hsp : isPySpace c = true
    · simp only [matchBodyDollar, hsp, if_pos]
      constructor
      · intro h
        exact absurd h (by simp)
      · rintro (⟨_, hall⟩ | ⟨t, ht, hne, hall⟩)
        · exact absurd (hall c (List.mem_cons_self c cs)) (by simp [hsp])
        · rcases t with _ | ⟨c', t'⟩
          · exact absurd rfl hne
          · have hc : c = c' := by simpa using congrArg List.head? ht
            subst hc
            exact absurd (hall c (List.mem_cons_self c t')) (by simp [hsp])
    · have hsp' : isPySpace c = false := by simpa using hsp
      rcases Decidable.em (cs = []) with hnil | hnil
      · subst hnil
        simp only [matchBodyDollar, hsp', Bool.false_eq_true, if_false, if_pos rfl]
        constructor
        · intro _
          left
          refine ⟨by simp, ?_⟩
          intro x hx
          have hxc : x = c := by simpa using hx
          subst hxc
          exact hsp'
        · intro _
          rfl
      · rcases Decidable.em (cs = ['\n']) with hlf | hlf
        · subst hlf
          simp only [matchBodyDollar, hsp', Bool.false_eq_true, if_false,
            if_neg (by simp : ¬(['\n'] : List Char) = []), if_pos rfl]
          constructor
          · intro _
            right
            refine ⟨[c], by simp, by simp, ?_⟩
            intro x hx
            have hxc : x = c := by simpa using hx
            subst hxc
            exact hsp'
          · intro _
            rfl
        · simp only [matchBodyDollar, hsp', Bool.false_eq_true, if_false,
            if_neg hnil, if_neg hlf]
          rw [ih]
          constructor
          · rintro (⟨hne, hall⟩ | ⟨t, ht, htne, hall⟩)
            · left
              refine ⟨by simp, ?_⟩
              intro x hx
              rcases List.mem_cons.mp hx with rfl | hx'
              · exact hsp'
              · exact hall x hx'
            · right
              refine ⟨c :: t, by simp [ht], by simp, ?_⟩
              intro x hx
              rcases List.mem_cons.mp hx with rfl | hx'
              · exact hsp'
              · exact hall x hx'
          · rintro (⟨_, hall⟩ | ⟨t, ht, htne, hall⟩)
            · left
              exact ⟨hnil, fun x hx => hall x (List.mem_cons_of_mem c hx)⟩
            · right
              rcases t with _ | ⟨c', t'⟩
              · refine absurd ?_ hnil
                simpa using congrArg List.tail ht
              · have hc : c = c' ∧ cs = t' ++ ['\n'] := by simpa using ht
                refine ⟨t', hc.2, ?_, fun x hx => hall x (by simp [hx])⟩
                intro h0
                subst h0
                exact hlf (by simpa using hc.2)

theorem specValid_iff (s : String) :
    specValid s = true ↔
      ∃ r, stripUrlHead s.toList = some r ∧ r ≠ [] ∧ ∀ c ∈ r, isPySpace c = false := by
  unfold specValid
  cases h : stripUrlHead s.toList with
  | none => simp
  | some r =>
    simp only [Bool.and_eq_true, Bool.not_eq_true', List.all_eq_true, Option.some_inj]
    constructor
    · rintro ⟨h1, h2⟩
      refine ⟨r, rfl, ?_, fun c hc => by simpa using h2 c hc⟩
      intro h0
      rw [h0] at h1
      exact absurd h1 (by simp)
    · rintro ⟨r', hr', hne, hall⟩
      obtain rfl : r = r' := hr'
      refine ⟨?_, fun c hc => by simpa using hall c hc⟩
      simpa [List.isEmpty_iff] using hne

theorem is_valid_url_eq (s : String) :
    is_valid_url s = (match stripUrlHead s.toList with
      | some rest => matchBodyDollar rest
      | none => false) := by
  unfold is_valid_url
  by_cases h : s.isEmpty = true
  · have h2 : s.toList = [] := (isEmpty_iff_toList s).mp h
    rw [if_pos h, h2]
    rfl
  · rw [if_neg h]

/-- Claim C6, amended: `is_valid_url raw` returns true iff `raw` matches
`^(https?://|www\.)\S+$` as a full-string pattern, or `raw` is such a
match followed by a single trailing newline (Python's `$` also matches
just before a newline that ends the string).  In particular the claim's
"false for every string not matching the regular expression" fails on
strings such as `"http://a\n"`. -/
theorem c6_is_valid_semantics (s : String) :
    is_valid_url s = true ↔
      (specValid s = true ∨ ∃ t : String, s = t ++ "\n" ∧ specValid t = true) := by
  rw [is_valid_url_eq]
  cases hstrip : stripUrlHead s.toList with
  | none =>
    show false = true ↔ _
    simp only [Bool.false_eq_true, false_iff]
    rintro (hspec | ⟨t, hts, hspec⟩)
    · obtain ⟨r, hr, -, -⟩ := (specValid_iff s).mp hspec
      rw [hstrip] at hr
      exact Option.noConfusion hr
    · obtain ⟨r, hr, -, -⟩ := (specValid_iff t).mp hspec
      rcases (strip_head_some t.toList r).mp hr with hP | hP | hP
      · have hs : stripUrlHead s.toList = some (r ++ ['\n']) := by
          refine (strip_head_some _ _).mpr (Or.inl ?_)
          rw [hts, toList_append, hP]
          simp
        rw [hstrip] at hs
        exact Option.noConfusion hs
      · have hs : stripUrlHead s.toList = some (r ++ ['\n']) := by
          refine (strip_head_some _ _).mpr (Or.inr (Or.inl ?_))
          rw [hts, toList_append, hP]
          simp
        rw [hstrip] at hs
        exact Option.noConfusion hs
      · have hs : stripUrlHead s.toList = some (r ++ ['\n']) := by
          refine (strip_head_some _ _).mpr (Or.inr (Or.inr ?_))
          rw [hts, toList_append, hP]
          simp
        rw [hstrip] at hs
        exact Option.noConfusion hs
  | some r =>
    show matchBodyDollar r = true ↔ _
    rw [matchBodyDollar_iff]
    constructor
    · rintro (⟨hne, hall⟩ | ⟨tl, htl, htlne, hall⟩)
      · exact Or.inl ((specValid_iff s).mpr ⟨r, hstrip, hne, hall⟩)
      · right
        rcases (strip_head_some s.toList r).mp hstrip with hP | hP | hP
        · refine ⟨String.mk (httpsL ++ tl), ?_, ?_⟩
          · apply toList_inj
            rw [toList_append]
            show s.toList = (httpsL ++ tl) ++ ['\n']
            rw [hP, htl, List.append_assoc]
          · exact (specValid_iff _).mpr
              ⟨tl, (strip_head_some _ _).mpr (Or.inl rfl), htlne, hall⟩
        · refine ⟨String.mk (httpL ++ tl), ?_, ?_⟩
          · apply toList_inj
            rw [toList_append]
            show s.toList = (httpL ++ tl) ++ ['\n']
            rw [hP, htl, List.append_assoc]
          · exact (specValid_iff _).mpr
              ⟨tl, (strip_head_some _ _).mpr (Or.inr (Or.inl rfl)), htlne, hall⟩
        · refine ⟨String.mk (wwwL ++ tl), ?_, ?_⟩
          · apply toList_inj
            rw [toList_append]
            show s.toList = (wwwL ++ tl) ++ ['\n']
            rw [hP, htl, List.append_assoc]
          · exact (specValid_iff _).mpr
              ⟨tl, (strip_head_some _ _).mpr (Or.inr (Or.inr rfl)), htlne, hall⟩
    · rintro (hspec | ⟨t, hts, hspec⟩)
      · obtain ⟨r', hr', hne, hall⟩ := (specValid_iff s).mp hspec
        rw [hstrip] at hr'
        obtain rfl : r = r' := Option.some_inj.mp hr'
        exact Or.inl ⟨hne, hall⟩
      · right
        obtain ⟨r', hr', hne, hall⟩ := (specValid_iff t).mp hspec
        rcases (strip_head_some t.toList r').mp hr' with hP | hP | hP
        · have hs : stripUrlHead s.toList = some (r' ++ ['\n']) := by
            refine (strip_head_some _ _).mpr (Or.inl ?_)
            rw [hts, toList_append, hP]
            simp
          rw [hstrip] at hs
          exact ⟨r', Option.some_inj.mp hs, hne, hall⟩
        · have hs : stripUrlHead s.toList = some (r' ++ ['\n']) := by
            refine (strip_head_some _ _).mpr (Or.inr (Or.inl ?_))
            rw [hts, toList_append, hP]
            simp
          rw [hstrip] at hs
          exact ⟨r', Option.some_inj.mp hs, hne, hall⟩
        · have hs : stripUrlHead s.toList = some (r' ++ ['\n']) := by
            refine (strip_head_some _ _).mpr (Or.inr (Or.inr ?_))
            rw [hts, toList_append, hP]
            simp
          rw [hstrip] at hs
          exact ⟨r', Option.some_inj.mp hs, hne, hall⟩

/-- Claim C6, counterexample: `"http://a\n"` does not match
`^(https?://|www\.)\S+$` as a full-string pattern (its last character is
whitespace), yet `is_valid_url` accepts it, because Python's `re` lets
`$` match just before a trailing newline.  So "for every string not
matching the regular expression, `is_valid` returns false" is refuted. -/
theorem c6_counterexample :
    is_valid_url "http://a\n" = true ∧ specValid "http://a\n" = false := by
  decide

theorem valid_strip_some (s : String) (h : is_valid_url s = true) :
    ∃ r, stripUrlHead s.toList = some r := by
  rw [is_valid_url_eq] at h
  cases hs : stripUrlHead s.toList with
  | none =>
    rw [hs] at h
    exact absurd h (by simp)
  | some r => exact ⟨r, rfl⟩

theorem urlparseScheme_http (s : String) (r : List Char) (hP : s.toList = httpL ++ r) :
    urlparseScheme s = PyResult.exn ∨ urlparseScheme s = PyResult.ret true := by
  have h1 : urlparseScheme s
      = (if invalidIPv6 (netlocOf ('/' :: '/' :: cleanUrl r)) then PyResult.exn
         else PyResult.ret true) := by
    unfold urlparseScheme
    rw [hP]
    rfl
  rw [h1]
  by_cases hb : invalidIPv6 (netlocOf ('/' :: '/' :: cleanUrl r)) = true
  · rw [if_pos hb]
    exact Or.inl rfl
  · rw [if_neg (by simpa using hb)]
    exact Or.inr rfl

theorem urlparseScheme_https (s : String) (r : List Char) (hP : s.toList = httpsL ++ r) :
    urlparseScheme s = PyResult.exn ∨ urlparseScheme s = PyResult.ret true := by
  have h1 : urlparseScheme s
      = (if invalidIPv6 (netlocOf ('/' :: '/' :: cleanUrl r)) then PyResult.exn
         else PyResult.ret true) := by
    unfold urlparseScheme
    rw [hP]
    rfl
  rw [h1]
  by_cases hb : invalidIPv6 (netlocOf ('/' :: '/' :: cleanUrl r)) = true
  · rw [if_pos hb]
    exact Or.inl rfl
  · rw [if_neg (by simpa using hb)]
    exact Or.inr rfl

/-- Claim C7, counterexample: `"http://["` is accepted by `is_valid_url`
(`[` is not whitespace), yet `normalize_url` does not return a string at
all — `urlparse` raises `ValueError("Invalid IPv6 URL")` on the unmatched
bracket in the network location, and `normalize_url` has no handler, so
the exception propagates.  (Verified against CPython.) -/
theorem c7_counterexample :
    is_valid_url "http://[" = true ∧ normalize_url "http://[" = PyResult.exn := by
  decide

/-- Claim C7, amended: for every raw string accepted by `is_valid_url` on
which `normalize_url` returns at all (i.e. `urlparse` does not raise on an
unmatched bracket in the authority), the returned string begins with
`http://` or `https://`; inputs starting with `www.` are prefixed with
`http://` (before any parsing), inputs whose parse finds no URI scheme
are prefixed with `http://`, and inputs already carrying a scheme are
returned unchanged.  On accepted inputs such as `"http://["` the function
instead raises `ValueError` past its boundary. -/
theorem c7_normalize_scheme (s n : String) (hv : is_valid_url s = true)
    (hn : normalize_url s = PyResult.ret n) :
    (startsWithStr n "http://" = true ∨ startsWithStr n "https://" = true)
      ∧ (startsWithStr s "www." = true → n = "http://" ++ s)
      ∧ (startsWithStr s "www." = false → urlparseScheme s = PyResult.ret false →
          n = "http://" ++ s)
      ∧ (startsWithStr s "www." = false → urlparseScheme s = PyResult.ret true →
          n = s) := by
  refine ⟨?_, ?_, ?_, ?_⟩
  · obtain ⟨r, hr⟩ := valid_strip_some s hv
    rcases (strip_head_some s.toList r).mp hr with hP | hP | hP
    · have hw : startsWithStr s "www." = false := by
        unfold startsWithStr
        rw [hP]
        rfl
      unfold normalize_url at hn
      rw [if_neg (by simp [hw])] at hn
      rcases urlparseScheme_https s r hP with hex | htrue
      · rw [hex] at hn
        exact PyResult.noConfusion hn
      · rw [htrue] at hn
        have hn2 : PyResult.ret s = PyResult.ret n := hn
        obtain rfl := (PyResult.ret.inj hn2).symm
        right
        unfold startsWithStr
        rw [hP]
        rfl
    · have hw : startsWithStr s "www." = false := by
        unfold startsWithStr
        rw [hP]
        rfl
      unfold normalize_url at hn
      rw [if_neg (by simp [hw])] at hn
      rcases urlparseScheme_http s r hP with hex | htrue
      · rw [hex] at hn
        exact PyResult.noConfusion hn
      · rw [htrue] at hn
        have hn2 : PyResult.ret s = PyResult.ret n := hn
        obtain rfl := (PyResult.ret.inj hn2).symm
        left
        unfold startsWithStr
        rw [hP]
        rfl
    · have hw : startsWithStr s "www." = true := by
        unfold startsWithStr
        rw [hP]
        rfl
      unfold normalize_url at hn
      rw [if_pos hw] at hn
      obtain rfl := (PyResult.ret.inj hn).symm
      left
      unfold startsWithStr
      rw [toList_append]
      rfl
  · intro h1
    unfold normalize_url at hn
    rw [if_pos h1] at hn
    exact (PyResult.ret.inj hn).symm
  · intro h1 h2
    unfold normalize_url at hn
    rw [if_neg (by simp [h1]), h2] at hn
    have hn2 : PyResult.ret ("http://" ++ s) = PyResult.ret n := hn
    exact (PyResult.ret.inj hn2).symm
  · intro h1 h2
    unfold normalize_url at hn
    rw [if_neg (by simp [h1]), h2] at hn
    have hn2 : PyResult.ret s = PyResult.ret n := hn
    exact (PyResult.ret.inj hn2).symm

/-- Witness for C7 at the concrete valid inputs `"www.a"` and
`"https://a"`, on which `normalize_url` returns normally. -/
theorem c7_normalize_scheme_witness :
    (is_valid_url "www.a" = true
      ∧ normalize_url "www.a" = PyResult.ret "http://www.a"
      ∧ (startsWithStr "http://www.a" "http://" = true
          ∨ startsWithStr "http://www.a" "https://" = true))
    ∧ (is_valid_url "https://a" = true
      ∧ normalize_url "https://a" = PyResult.ret "https://a"
      ∧ (startsWithStr "https://a" "www." = false →
          urlparseScheme "https://a" = PyResult.ret true → "https://a" = "https://a")) :=
  ⟨⟨by decide, by decide,
      (c7_normalize_scheme "www.a" "http://www.a" (by decide) (by decide)).1⟩,
   ⟨by decide, by decide,
      (c7_normalize_scheme "https://a" "https://a" (by decide) (by decide)).2.2.2⟩⟩

/-- Claim C5, amended: for every input record whose URL field is empty or
otherwise invalid, `archivechecker3.py`'s `process_url` returns normally,
emitting the `NOTPROVIDED` sentinel in the first-seen, last-seen and
status-code fields, the *empty string* (not the `NOTPROVIDED` sentinel)
in the last-snapshot-reference field, and performs no liveness check or
archive query. -/
theorem c5_not_provided (env : Env3) (u : String) (h : is_valid_url u = false) :
    process_url3 env u
      = PyResult.ret (notProvidedOut, []) := by
  unfold process_url3
  rw [h]
  rfl

/-- Claim C5, counterexample: on the empty-string URL the
last-snapshot-reference field is set to `""`, not to the `NOTPROVIDED`
sentinel used by the other three fields, so "all four derived fields are
set to the not-provided sentinel" fails for the fourth field. -/
theorem c5_counterexample :
    process_url3 ⟨fun _ => none, fun _ _ => Attempt.netFail⟩ ""
        = PyResult.ret (notProvidedOut, [])
      ∧ ("" : String) ≠ "NOTPROVIDED" := by
  decide

/-- Witness for C5 (amended) at the empty-string URL. -/
theorem c5_witness :
    is_valid_url "" = false
      ∧ process_url3 ⟨fun _ => some 200, fun _ _ => Attempt.netFail⟩ ""
        = PyResult.ret (notProvidedOut, []) :=
  ⟨by decide, c5_not_provided ⟨fun _ => some 200, fun _ _ => Attempt.netFail⟩ "" (by decide)⟩

/-- Claim C1, amended: among the three outcomes of a processed URL role in
`archivechecker3.py`, only "role not provided / invalid input" gets a
distinct sentinel representation (`NOTPROVIDED` in the first-seen field,
versus the empty string in the other two outcomes); the outcomes "query
attempted but zero qualifying snapshots found" and "query failed after
exhausting retries" produce *identical* results and are not distinguished
in the output. -/
theorem c1_sentinel_states (live : String → Option Nat) (u v : String)
    (hu : is_valid_url u = true) (hv : is_valid_url v = false) :
    process_url3 ⟨live, fun _ _ => Attempt.netFail⟩ u
        = process_url3 ⟨live, fun _ _ => Attempt.ok []⟩ u
      ∧ (∀ out, process_url3 ⟨live, fun _ _ => Attempt.netFail⟩ u = PyResult.ret out →
          out.1.first_seen = "")
      ∧ ∀ env : Env3, process_url3 env v
          = PyResult.ret (notProvidedOut, []) := by
  refine ⟨?_, ?_, ?_⟩
  · unfold process_url3
    rw [hu]
    cases hn : normalize_url u with
    | exn => rfl
    | ret nn => rfl
  · intro out hout
    unfold process_url3 at hout
    rw [hu] at hout
    cases hn : normalize_url u with
    | exn =>
      rw [hn] at hout
      exact PyResult.noConfusion hout
    | ret nn =>
      rw [hn] at hout
      injection hout with h2
      rw [← h2]
      rfl
  · intro env
    unfold process_url3
    rw [hv]
    rfl

/-- Claim C1, counterexample: with the same (unreachable) live probe, a
valid URL whose archive query fails after exhausting all 10 retries and a
valid URL whose query succeeds immediately with zero snapshots produce
identical output fields — the two states are collapsed, refuting
pairwise distinctness of the three sentinel representations. -/
theorem c1_counterexample :
    process_url3 ⟨fun _ => none, fun _ _ => Attempt.netFail⟩ "http://a"
        = process_url3 ⟨fun _ => none, fun _ _ => Attempt.ok []⟩ "http://a"
      ∧ (get_wayback_info3 (fun _ => Attempt.netFail)).2.2 = 10
      ∧ (get_wayback_info3 (fun _ => Attempt.ok [])).2.2 = 1
      ∧ is_valid_url "http://a" = true := by
  decide

/-- Witness for C1 (amended) at concrete inputs. -/
theorem c1_witness :
    is_valid_url "http://a" = true
      ∧ is_valid_url "" = false
      ∧ (process_url3 ⟨fun _ => some 200, fun _ _ => Attempt.netFail⟩ "http://a"
            = process_url3 ⟨fun _ => some 200, fun _ _ => Attempt.ok []⟩ "http://a"
          ∧ (∀ out, process_url3 ⟨fun _ => some 200, fun _ _ => Attempt.netFail⟩ "http://a"
              = PyResult.ret out → out.1.first_seen = "")
          ∧ ∀ env : Env3, process_url3 env ""
              = PyResult.ret (notProvidedOut, [])) :=
  ⟨by decide, by decide,
    c1_sentinel_states (fun _ => some 200) "http://a" "" (by decide) (by decide)⟩

theorem process_url3_exn_transfer (env env2 : Env3) (u : String)
    (h : process_url3 env u = PyResult.exn) : process_url3 env2 u = PyResult.exn := by
  unfold process_url3 at h ⊢
  by_cases hv : is_valid_url u = true
  · rw [hv] at h ⊢
    cases hn : normalize_url u with
    | exn => rfl
    | ret nn =>
      rw [hn] at h
      exact PyResult.noConfusion h
  · have hv2 : is_valid_url u = false := by simpa using hv
    rw [hv2] at h
    exact PyResult.noConfusion h

theorem processRow3_exn_transfer (env env2 : Env3) (r : UrlRecord)
    (h : processRow3 env r = PyResult.exn) : processRow3 env2 r = PyResult.exn := by
  unfold processRow3 at h ⊢
  cases h1 : process_url3 env2 (pyStrip r.progetto) with
  | exn => rfl
  | ret p2 =>
    cases h0 : process_url3 env (pyStrip r.progetto) with
    | exn =>
      exact PyResult.noConfusion
        ((process_url3_exn_transfer env env2 _ h0).symm.trans h1)
    | ret p =>
      rw [h0] at h
      cases h2 : process_url3 env (pyStrip r.vetrina) with
      | ret q =>
        rw [h2] at h
        exact PyResult.noConfusion h
      | exn =>
        rw [process_url3_exn_transfer env env2 _ h2]

theorem mainLoop3_ok (env : Env3) :
    ∀ rows : List UrlRecord, (∀ r ∈ rows, processRow3 env r ≠ PyResult.exn) →
      (mainLoop3 env rows).2 = true
        ∧ (mainLoop3 env rows).1.length = rows.length
        ∧ ∀ i : Nat, (mainLoop3 env rows).1[i]?
            = rows[i]?.bind (fun r => (processRow3 env r).toOption) := by
  intro rows
  induction rows with
  | nil =>
    intro _
    refine ⟨rfl, rfl, ?_⟩
    intro i
    simp [mainLoop3]
  | cons r rs ih =>
    intro hok
    have hr : processRow3 env r ≠ PyResult.exn := hok r (List.mem_cons_self r rs)
    obtain ⟨ih1, ih2, ih3⟩ := ih (fun x hx => hok x (List.mem_cons_of_mem r hx))
    cases hres : processRow3 env r with
    | exn => exact absurd hres hr
    | ret out =>
      have hstep : mainLoop3 env (r :: rs)
          = (out :: (mainLoop3 env rs).1, (mainLoop3 env rs).2) := by
        show (match processRow3 env r with
          | PyResult.exn => ([], false)
          | PyResult.ret out =>
            ((out :: (mainLoop3 env rs).1 : List OutRow3), (mainLoop3 env rs).2)) = _
        rw [hres]
      refine ⟨by rw [hstep]; exact ih1, by rw [hstep]; simp [ih2], ?_⟩
      intro i
      cases i with
      | zero =>
        rw [hstep]
        simp [hres, PyResult.toOption]
      | succ j =>
        rw [hstep]
        simpa using ih3 j

/-- Claim C2, amended: for every non-empty input record list on which no
record's processing raises — in particular whenever every role URL either
fails validation or is parsed by `urlparse` without error — the batch
writes exactly one output record per input record, in input order; and
whether a record raises does not depend on the network environment at
all, so failures of the liveness check or of the archive query never
abort the batch or suppress a row.  However, an `is_valid`-accepted URL
on which `urlparse` raises (an unmatched bracket in the authority, e.g.
`"http://["`) aborts the batch, suppressing that record's row and every
later one. -/
theorem c2_one_output_per_input (env : Env3) (rows : List UrlRecord)
    (_hne : rows ≠ []) (hok : ∀ r ∈ rows, processRow3 env r ≠ PyResult.exn) :
    ((mainLoop3 env rows).2 = true
      ∧ (mainLoop3 env rows).1.length = rows.length
      ∧ ∀ i : Nat, (mainLoop3 env rows).1[i]?
          = rows[i]?.bind (fun r => (processRow3 env r).toOption))
    ∧ ∀ (env2 : Env3) (r : UrlRecord),
        processRow3 env r = PyResult.exn ↔ processRow3 env2 r = PyResult.exn :=
  ⟨mainLoop3_ok env rows hok,
   fun env2 r => ⟨processRow3_exn_transfer env env2 r, processRow3_exn_transfer env2 env r⟩⟩

/-- Claim C2, counterexample: a record whose URL cell is `"http://["`
passes validation, then `normalize_url` raises an uncaught `ValueError`
inside the loop body, aborting the batch: for this non-empty two-record
input the pipeline writes zero output rows — both the failing record's
row and the following record's row are suppressed. -/
theorem c2_counterexample :
    is_valid_url "http://[" = true
      ∧ ([(⟨"http://[", "", []⟩ : UrlRecord), ⟨"", "", []⟩] : List UrlRecord).length = 2
      ∧ mainLoop3 ⟨fun _ => none, fun _ _ => Attempt.netFail⟩
          [⟨"http://[", "", []⟩, ⟨"", "", []⟩] = ([], false) := by
  decide

/-- Witness for C2 (amended) on a concrete one-row input whose processing
does not raise. -/
theorem c2_witness :
    ([(⟨"http://a", "", []⟩ : UrlRecord)] : List UrlRecord) ≠ []
      ∧ (∀ r ∈ ([(⟨"http://a", "", []⟩ : UrlRecord)] : List UrlRecord),
          processRow3 ⟨fun _ => none, fun _ _ => Attempt.netFail⟩ r ≠ PyResult.exn)
      ∧ (((mainLoop3 ⟨fun _ => none, fun _ _ => Attempt.netFail⟩
              [⟨"http://a", "", []⟩]).2 = true
          ∧ (mainLoop3 ⟨fun _ => none, fun _ _ => Attempt.netFail⟩
              [⟨"http://a", "", []⟩]).1.length
            = ([(⟨"http://a", "", []⟩ : UrlRecord)] : List UrlRecord).length
          ∧ ∀ i : Nat, (mainLoop3 ⟨fun _ => none, fun _ _ => Attempt.netFail⟩
              [⟨"http://a", "", []⟩]).1[i]?
            = (([(⟨"http://a", "", []⟩ : UrlRecord)] : List UrlRecord)[i]?).bind
                (fun r => (processRow3 ⟨fun _ => none, fun _ _ => Attempt.netFail⟩
                  r).toOption))
        ∧ ∀ (env2 : Env3) (r : UrlRecord),
            processRow3 ⟨fun _ => none, fun _ _ => Attempt.netFail⟩ r = PyResult.exn
              ↔ processRow3 env2 r = PyResult.exn) :=
  ⟨by simp, by decide,
    c2_one_output_per_input ⟨fun _ => none, fun _ _ => Attempt.netFail⟩
      [⟨"http://a", "", []⟩] (by simp) (by decide)⟩

/-- Claim C10: in `archivechecker2.py` the second URL role
(`URL sito vetrina`) is never processed: whenever a row is produced its
three derived fields for that role are the empty string and the network
effects are exactly those of processing the first role's URL; and the
outcome — including whether the row raises — does not depend on the
second role's cell at all, even when it holds a valid URL. -/
theorem c10_vetrina_never_processed (env : Env2) (p v v2 : String)
    (rest : List (String × String)) :
    (∀ out, processRow2 env ⟨p, v, rest⟩ = PyResult.ret out →
        out.1.vFirst = "" ∧ out.1.vLast = "" ∧ out.1.vStatus = ""
          ∧ ∃ q, process_url2 env (pyStrip p) = PyResult.ret q
              ∧ out.2 = q.2 ∧ out.1.pFirst = q.1.1 ∧ out.1.pLast = q.1.2.1
              ∧ out.1.pStatus = q.1.2.2)
      ∧ (processRow2 env ⟨p, v, rest⟩ = PyResult.exn
          ↔ processRow2 env ⟨p, v2, rest⟩ = PyResult.exn)
      ∧ ∀ out out2, processRow2 env ⟨p, v, rest⟩ = PyResult.ret out →
          processRow2 env ⟨p, v2, rest⟩ = PyResult.ret out2 →
          out.1.pFirst = out2.1.pFirst ∧ out.1.pLast = out2.1.pLast
            ∧ out.1.pStatus = out2.1.pStatus ∧ out.1.vFirst = out2.1.vFirst
            ∧ out.1.vLast = out2.1.vLast ∧ out.1.vStatus = out2.1.vStatus
            ∧ out.2 = out2.2 := by
  have hrow : ∀ w : String, processRow2 env ⟨p, w, rest⟩
      = (match process_url2 env (pyStrip p) with
         | PyResult.exn => PyResult.exn
         | PyResult.ret q =>
           PyResult.ret
             ({ base := ⟨p, w, rest⟩
              , pFirst := q.1.1, pLast := q.1.2.1, pStatus := q.1.2.2
              , vFirst := "", vLast := "", vStatus := "" }, q.2)) := by
    intro w
    rfl
  cases hq : process_url2 env (pyStrip p) with
  | exn =>
    refine ⟨?_, ?_, ?_⟩
    · intro out hout
      rw [hrow, hq] at hout
      exact PyResult.noConfusion hout
    · rw [hrow, hrow, hq]
    · intro out out2 hout hout2
      rw [hrow, hq] at hout
      exact PyResult.noConfusion hout
  | ret q =>
    refine ⟨?_, ?_, ?_⟩
    · intro out hout
      rw [hrow, hq] at hout
      injection hout with h2
      rw [← h2]
      exact ⟨rfl, rfl, rfl, q, rfl, rfl, rfl, rfl, rfl⟩
    · rw [hrow, hrow, hq]
      simp
    · intro out out2 hout hout2
      rw [hrow, hq] at hout
      rw [hrow, hq] at hout2
      injection hout with h2
      injection hout2 with h3
      rw [← h2, ← h3]
      exact ⟨rfl, rfl, rfl, rfl, rfl, rfl, rfl⟩

/-- Witness for C10 at a concrete row whose first role is processed
normally while the second role's cell varies. -/
theorem c10_witness :
    (processRow2 ⟨fun _ => some 200, fun _ _ => Attempt.netFail⟩
        ⟨"http://a", "http://b", []⟩ ≠ PyResult.exn)
      ∧ ∀ out, processRow2 ⟨fun _ => some 200, fun _ _ => Attempt.netFail⟩
            ⟨"http://a", "http://b", []⟩ = PyResult.ret out →
          out.1.vFirst = "" ∧ out.1.vLast = "" ∧ out.1.vStatus = ""
            ∧ ∃ q, process_url2 ⟨fun _ => some 200, fun _ _ => Attempt.netFail⟩
                  (pyStrip "http://a") = PyResult.ret q
                ∧ out.2 = q.2 ∧ out.1.pFirst = q.1.1 ∧ out.1.pLast = q.1.2.1
                ∧ out.1.pStatus = q.1.2.2 :=
  ⟨by decide,
    (c10_vetrina_never_processed ⟨fun _ => some 200, fun _ _ => Attempt.netFail⟩
      "http://a" "http://b" "http://c" []).1⟩

/-- Claim C8: under `archivechecker3.py`'s client-side filtering policy,
every snapshot whose numeric status code lies in 400–599 inclusive is
discarded (no element of the filtered list has a code in that range),
every snapshot whose status-code field is non-numeric is skipped rather
than treated as a fatal error (removing such a row from the input leaves
the filtered list unchanged), and for a snapshot set containing exactly
one entry with status 404 the resulting summary has all fields
null/empty. -/
theorem c8_filter_policy :
    (∀ (rows : List RawRow) (y : Snap),
        y ∈ filterValid rows → 400 ≤ y.2.2 → ¬(y.2.2 ≤ 599))
      ∧ (∀ (rows₁ rows₂ : List RawRow) (r : RawRow), pyInt? r.code = none →
          filterValid (rows₁ ++ r :: rows₂) = filterValid (rows₁ ++ rows₂))
      ∧ summarize (filterValid [⟨"20200101000000", "http://example.com/", "404"⟩])
          = (none, none, none) := by
  refine ⟨?_, ?_, by decide⟩
  · intro rows y hy h400 h599
    obtain ⟨a, ha, hk⟩ := List.mem_filterMap.mp hy
    cases hc : pyInt? a.code with
    | none =>
      simp only [keepRow, hc] at hk
      exact Option.noConfusion hk
    | some c =>
      simp only [keepRow, hc] at hk
      by_cases hrange : 400 ≤ c ∧ c < 600
      · rw [if_pos hrange] at hk
        exact Option.noConfusion hk
      · rw [if_neg hrange] at hk
        obtain rfl : y = (a.ts, a.orig, c) := (Option.some_inj.mp hk).symm
        have h1 : (400 : Int) ≤ c := h400
        have h2 : (c : Int) ≤ 599 := h599
        exact hrange ⟨h1, by omega⟩
  · intro rows₁ rows₂ r hnone
    unfold filterValid
    rw [List.filterMap_append, List.filterMap_append, List.filterMap_cons,
      show keepRow r = none from by unfold keepRow; rw [hnone]]

/-- Witness for C8: a 600-coded snapshot survives the filter (the filter
discards 400–599 only), and a non-numeric row is skipped without
affecting its neighbours. -/
theorem c8_filter_policy_witness :
    (("t", "u", (600 : Int)) ∈ filterValid [⟨"t", "u", "600"⟩]
      ∧ (400 : Int) ≤ 600
      ∧ ¬(("t", "u", (600 : Int)).2.2 ≤ 599))
    ∧ (pyInt? "nf" = none
      ∧ filterValid ([⟨"a", "b", "200"⟩] ++ (⟨"t", "u", "nf"⟩ : RawRow) :: [])
          = filterValid ([⟨"a", "b", "200"⟩] ++ [])) :=
  ⟨⟨by decide, by decide,
      c8_filter_policy.1 [⟨"t", "u", "600"⟩] ("t", "u", (600 : Int))
        (by decide) (by decide)⟩,
   ⟨by decide,
      c8_filter_policy.2.1 [⟨"a", "b", "200"⟩] [] ⟨"t", "u", "nf"⟩ (by decide)⟩⟩

theorem sorted_head_min (l : List Snap) (a : Snap) (rest : List Snap)
    (h : List.insertionSort tsLe l = a :: rest) :
    a ∈ l ∧ ∀ b ∈ l, a.1 ≤ b.1 := by
  have hperm := List.perm_insertionSort tsLe l
  have hsorted := List.sorted_insertionSort tsLe l
  rw [h] at hperm hsorted
  constructor
  · exact hperm.mem_iff.mp (List.mem_cons_self a rest)
  · intro b hb
    have hb' : b ∈ a :: rest := hperm.mem_iff.mpr hb
    rcases List.mem_cons.mp hb' with rfl | hb''
    · exact le_refl _
    · exact (List.sorted_cons.mp hsorted).1 b hb''

theorem sorted_le_getLast :
    ∀ (l : List Snap), List.Sorted tsLe l → ∀ (hne : l ≠ []) (x : Snap),
      x ∈ l → x.1 ≤ (l.getLast hne).1 := by
  intro l
  induction l with
  | nil =>
    intro _ hne
    exact absurd rfl hne
  | cons a t ih =>
    intro hs hne x hx
    rcases t with _ | ⟨b, t'⟩
    · have hxa : x = a := by simpa using hx
      subst hxa
      exact le_refl _
    · rw [List.getLast_cons (by simp : (b :: t') ≠ [])]
      rcases List.mem_cons.mp hx with rfl | hx'
      · have hmem : (b :: t').getLast (by simp) ∈ b :: t' := List.getLast_mem _
        exact (List.sorted_cons.mp hs).1 _ hmem
      · exact ih (List.sorted_cons.mp hs).2 (by simp) x hx'

theorem summarize_minmax (l : List Snap) (hne : l ≠ []) :
    (∃ a, a ∈ l ∧ (summarize l).1 = some a.1 ∧ ∀ b ∈ l, a.1 ≤ b.1)
      ∧ (∃ a, a ∈ l ∧ (summarize l).2.1 = some a.1 ∧ ∀ b ∈ l, b.1 ≤ a.1) := by
  have hperm := List.perm_insertionSort tsLe l
  have hsorted := List.sorted_insertionSort tsLe l
  obtain ⟨a, rest, hsort⟩ : ∃ a rest, List.insertionSort tsLe l = a :: rest := by
    rcases hs : List.insertionSort tsLe l with _ | ⟨a, rest⟩
    · rw [hs] at hperm
      exact absurd hperm.nil_eq.symm hne
    · exact ⟨a, rest, rfl⟩
  have hlastmem : (a :: rest).getLast (by simp) ∈ a :: rest := List.getLast_mem _
  have hsum : summarize l
      = (some a.1, some ((a :: rest).getLast (by simp)).1,
         some (waybackLink ((a :: rest).getLast (by simp)).1
           ((a :: rest).getLast (by simp)).2.1)) := by
    unfold summarize
    rw [if_neg (by simpa [List.isEmpty_iff] using hne), hsort]
    simp only [List.head?_cons, List.getLast?_eq_getLast_of_ne_nil (List.cons_ne_nil a rest)]
  constructor
  · obtain ⟨hmem, hmin⟩ := sorted_head_min l a rest hsort
    exact ⟨a, hmem, by rw [hsum], hmin⟩
  · rw [hsort] at hperm hsorted
    refine ⟨(a :: rest).getLast (by simp), hperm.mem_iff.mp hlastmem, by rw [hsum], ?_⟩
    intro b hb
    exact sorted_le_getLast (a :: rest) hsorted (by simp) b (hperm.mem_iff.mpr hb)

/-- Claim C9: `summarize` applied to the empty snapshot sequence yields a
summary with all fields null, and it is invariant under permutation of
its input: `first_seen` is the minimum and `last_seen` the maximum
timestamp of the qualifying snapshots, so reordering the input leaves
both unchanged. -/
theorem c9_summarize_order :
    summarize ([] : List Snap) = (none, none, none)
      ∧ (∀ (l l' : List Snap), l.Perm l' →
          (summarize l).1 = (summarize l').1
            ∧ (summarize l).2.1 = (summarize l').2.1)
      ∧ (∀ (l : List Snap), l ≠ [] →
          ∃ a, a ∈ l ∧ (summarize l).1 = some a.1 ∧ ∀ b ∈ l, a.1 ≤ b.1)
      ∧ (∀ (l : List Snap), l ≠ [] →
          ∃ a, a ∈ l ∧ (summarize l).2.1 = some a.1 ∧ ∀ b ∈ l, b.1 ≤ a.1) := by
  refine ⟨rfl, ?_, fun l hl => (summarize_minmax l hl).1,
    fun l hl => (summarize_minmax l hl).2⟩
  intro l l' hp
  rcases Decidable.em (l = []) with rfl | hne
  · have : l' = [] := hp.nil_eq.symm
    subst this
    exact ⟨rfl, rfl⟩
  · have hne' : l' ≠ [] := by
      intro h0
      subst h0
      exact hne hp.symm.nil_eq.symm
    obtain ⟨⟨a, hamem, haeq, hamin⟩, ⟨c, hcmem, hceq, hcmax⟩⟩ := summarize_minmax l hne
    obtain ⟨⟨a', hamem', haeq', hamin'⟩, ⟨c', hcmem', hceq', hcmax'⟩⟩ :=
      summarize_minmax l' hne'
    constructor
    · rw [haeq, haeq']
      have h1 : a.1 ≤ a'.1 := hamin a' (hp.mem_iff.mpr hamem')
      have h2 : a'.1 ≤ a.1 := hamin' a (hp.mem_iff.mp hamem)
      rw [le_antisymm h1 h2]
    · rw [hceq, hceq']
      have h1 : c.1 ≤ c'.1 := hcmax' c (hp.mem_iff.mp hcmem)
      have h2 : c'.1 ≤ c.1 := hcmax c' (hp.mem_iff.mpr hcmem')
      rw [le_antisymm h1 h2]

/-- Witness for C9 on a concrete two-snapshot list and its reversal. -/
theorem c9_summarize_order_witness :
    ([(("2", "u", 200) : Snap), ("1", "v", 301)]).Perm
        [(("1", "v", 301) : Snap), ("2", "u", 200)]
      ∧ (summarize [(("2", "u", 200) : Snap), ("1", "v", 301)]).1
          = (summarize [(("1", "v", 301) : Snap), ("2", "u", 200)]).1
      ∧ (summarize [(("2", "u", 200) : Snap), ("1", "v", 301)]).2.1
          = (summarize [(("1", "v", 301) : Snap), ("2", "u", 200)]).2.1 :=
  ⟨by decide,
    (c9_summarize_order.2.1 [(("2", "u", 200) : Snap), ("1", "v", 301)]
      [(("1", "v", 301) : Snap), ("2", "u", 200)] (by decide)).1,
    (c9_summarize_order.2.1 [(("2", "u", 200) : Snap), ("1", "v", 301)]
      [(("1", "v", 301) : Snap), ("2", "u", 200)] (by decide)).2⟩
